import Mathlib

/-!
Verification development for the bamUtil `dedup` subcommand (src/Dedup.cpp).

The duplicate-detection engine is embedded shallowly: `std::map` /
`std::multimap` become sorted association lists, pooled `SamRecord*`
ownership becomes an explicit list of released records, and the fatal
`Logger::error` path becomes `Except`.  The classes `DupKey`, `PairedKey`
and the helper `SamHelper::combineChromPos` live in headers that are not
part of this source tree; their definitions below are modelled from the
specification and are marked as such.
-/

namespace BamDedup

/-- Constant `Dedup::DEFAULT_MIN_QUAL` from Dedup.cpp. -/
def DEFAULT_MIN_QUAL : Int := 15

/-- Constant `Dedup::CLIP_OFFSET` from Dedup.cpp. -/
def CLIP_OFFSET : Int := 1000

/-- Flag-bit predicates of `SamFlag` as used by Dedup.cpp. -/
def isPairedFlag (f : Nat) : Bool := f % 2 = 1

/-- Bit 0x4 clear means the read is mapped. -/
def isMappedFlag (f : Nat) : Bool := f / 4 % 2 = 0

/-- Bit 0x8 clear means the mate is mapped. -/
def isMateMappedFlag (f : Nat) : Bool := f / 8 % 2 = 0

/-- Bit 0x10 set means the read aligns to the reverse strand. -/
def isReverseFlag (f : Nat) : Bool := f / 16 % 2 = 1

/-- Bit 0x400 set means the record is marked as a duplicate. -/
def isDuplicateFlag (f : Nat) : Bool := f / 1024 % 2 = 1

/-- The fields of an alignment record that Dedup.cpp reads.  Base
qualities are the raw character codes of the quality string; `clip` is
the number of leading (for forward strand: trailing, for reverse) bases
that consume no reference, used for the unclipped start/end position. -/
structure SamRecord where
  flag : Nat
  refID : Int
  pos : Int
  mateRefID : Int
  matePos : Int
  readName : String
  qual : List Int
  clip : Int
  rgTags : List String
deriving DecidableEq, Repr

/-- Key of the fragment map: `DupKey` of Dedup.h.  Modelled from the
spec: chromosome id, clipped 0-based start position, strand, library id. -/
structure DupKey where
  reference : Int
  coordinate : Int
  orientation : Bool
  libraryID : Nat
deriving DecidableEq, Repr

/-- Strict lexicographic order on (reference, coordinate, orientation,
libraryID).  Modelled from the spec: this ordering makes earlier map
entries flushable once the coordinate passes them. -/
def DupKey.lt (a b : DupKey) : Bool :=
  decide (a.reference < b.reference) ||
  (decide (a.reference = b.reference) &&
    (decide (a.coordinate < b.coordinate) ||
      (decide (a.coordinate = b.coordinate) &&
        ((!a.orientation && b.orientation) ||
          (decide (a.orientation = b.orientation) &&
            decide (a.libraryID < b.libraryID))))))

/-- Modelled from the spec: `DupKey::updateKey` computes the unclipped
start (forward strand) or unclipped end (reverse strand) so that reads
differing only in clipping collide. -/
def updateKey (r : SamRecord) (libraryID : Nat) : DupKey :=
  { reference := r.refID
    coordinate := if isReverseFlag r.flag then r.pos + r.clip else r.pos - r.clip
    orientation := isReverseFlag r.flag
    libraryID := libraryID }

/-- Modelled from the spec: `DupKey::cleanupKey` builds the cleanup
cutoff key, conservatively backed off by `CLIP_OFFSET`. -/
def cleanupKey (reference coordinate : Int) : DupKey :=
  { reference := reference
    coordinate := coordinate - CLIP_OFFSET
    orientation := false
    libraryID := 0 }

/-- Modelled from the spec: a default-constructed `DupKey`. -/
def emptyKey : DupKey := { reference := 0, coordinate := 0, orientation := false, libraryID := 0 }

/-- Key of the paired map: `PairedKey` of Dedup.h, an ordered pair of
two read keys.  Modelled from the spec. -/
structure PairedKey where
  key1 : DupKey
  key2 : DupKey
deriving DecidableEq, Repr

/-- Modelled from the spec: the `PairedKey` constructor canonicalizes
the smaller key first. -/
def PairedKey.make (k1 k2 : DupKey) : PairedKey :=
  if DupKey.lt k2 k1 then ⟨k2, k1⟩ else ⟨k1, k2⟩

/-- Modelled from the spec: paired-map ordering compares the second
(larger) key first, so a pair becomes flushable once the coordinate has
passed both of its reads. -/
def PairedKey.lt (a b : PairedKey) : Bool :=
  DupKey.lt a.key2 b.key2 || (decide (a.key2 = b.key2) && DupKey.lt a.key1 b.key1)

/-- Value stored in the fragment map and the mate map (`ReadData`). -/
structure ReadData where
  sumBaseQual : Int
  recordIndex : Nat
  paired : Bool
  recordPtr : Option SamRecord
deriving DecidableEq, Repr

/-- A default-constructed `ReadData`. -/
def ReadData.empty : ReadData :=
  { sumBaseQual := 0, recordIndex := 0, paired := false, recordPtr := none }

/-- Value stored in the paired map (`PairedData`). -/
structure PairedData where
  sumBaseQual : Int
  record1Ptr : Option SamRecord
  record2Ptr : Option SamRecord
  record1Index : Nat
  record2Index : Nat
deriving DecidableEq, Repr

/-- A default-constructed `PairedData`. -/
def PairedData.empty : PairedData :=
  { sumBaseQual := 0, record1Ptr := none, record2Ptr := none
    record1Index := 0, record2Index := 0 }

/-- Lookup in an association list, mirroring `std::map::find`. -/
def mapLookup {κ α : Type} [DecidableEq κ] : List (κ × α) → κ → Option α
  | [], _ => none
  | (k', v') :: rest, k => if k = k' then some v' else mapLookup rest k

/-- Insert a fresh key before the first strictly larger key, mirroring
the position `std::map` gives a newly inserted element. -/
def sortedInsert {κ α : Type} (lt : κ → κ → Bool) : List (κ × α) → κ → α → List (κ × α)
  | [], k, v => [(k, v)]
  | (k', v') :: rest, k, v =>
    if lt k k' then (k, v) :: (k', v') :: rest
    else (k', v') :: sortedInsert lt rest k v

/-- `std::map::insert`: returns the map, whether the key was newly
inserted, and the value now stored at the key. -/
def mapInsert {κ α : Type} [DecidableEq κ] (lt : κ → κ → Bool)
    (m : List (κ × α)) (k : κ) (v : α) : List (κ × α) × Bool × α :=
  match mapLookup m k with
  | some old => (m, false, old)
  | none => (sortedInsert lt m k v, true, v)

/-- Overwrite the value stored at an existing key, mirroring an
assignment through a `std::map` iterator. -/
def mapUpdate {κ α : Type} [DecidableEq κ] (m : List (κ × α)) (k : κ) (v : α) :
    List (κ × α) :=
  m.map fun p => if p.1 = k then (k, v) else p

/-- `std::multimap::insert` places a new element at the upper bound of
its key, after all existing elements with keys less than or equal. -/
def multiInsert {α : Type} : List (Int × α) → Int → α → List (Int × α)
  | [], k, v => [(k, v)]
  | (k', v') :: rest, k, v =>
    if decide (k < k') then (k, v) :: (k', v') :: rest
    else (k', v') :: multiInsert rest k v

/-- The configuration of a dedup run: command-line flags and the
read-group dictionary built from the header. -/
structure DedupCfg where
  minQual : Int
  oneChrom : Bool
  forceFlag : Bool
  removeFlag : Bool
  rgidLibMap : List (String × Nat)
  numLibraries : Nat
deriving DecidableEq, Repr

/-- The mutable engine state of pass 1: the three tracking maps, the
duplicate list, the list of records returned to the pool, the
missing-mate counter, and the position-change tracker. -/
structure DedupState where
  fragmentMap : List (DupKey × ReadData)
  pairedMap : List (PairedKey × PairedData)
  mateMap : List (Int × ReadData)
  dupList : List Nat
  released : List SamRecord
  numMissingMate : Nat
  lastReference : Int
  lastCoordinate : Int
deriving DecidableEq, Repr

/-- The empty engine state at the start of `Dedup::execute`. -/
def initState : DedupState :=
  { fragmentMap := [], pairedMap := [], mateMap := [], dupList := []
    released := [], numMissingMate := 0, lastReference := -1, lastCoordinate := -1 }

/-- Fatal conditions raised through `Logger::error`. -/
inductive DedupFatal where
  | alreadyMarked (recordCount : Nat)
  | libraryFatal (msg : String)
deriving DecidableEq, Repr

/-- Modelled from the spec: `SamHelper::combineChromPos` packs
(chromosome, position) into one linearized 64-bit value,
`(chrom << 32) | pos`; strictly increasing in coordinate order. -/
def combineChromPos (chrom pos : Int) : Int :=
  chrom.emod (2 ^ 32) * 2 ^ 32 + pos.emod (2 ^ 32)

/-- `Dedup::getBaseQuality`: sum of the phred base qualities that reach
`minQual`; a quality string of just the character 42 (an asterisk)
yields zero. -/
def getBaseQuality (minQual : Int) (r : SamRecord) : Int :=
  if r.qual = [42] then 0
  else r.qual.foldl (fun acc c => if minQual ≤ c - 33 then acc + (c - 33) else acc) 0

/-- The RG-tag scan inside `Dedup::getLibraryID`: a second RG tag while
one is already recorded is fatal. -/
def scanRGTags : List String → String → Except String String
  | [], acc => .ok acc
  | t :: ts, acc =>
    if acc ≠ "" then .error "Multiple RG tag found in one record"
    else scanRGTags ts t

/-- `Dedup::getLibraryID`.  Returns the library id together with a flag
recording whether the unresolved-read-group warning was emitted; fatal
conditions use the error branch. -/
def getLibraryID (cfg : DedupCfg) (checkTags : Bool) (r : SamRecord) :
    Except String (Nat × Bool) :=
  if !checkTags && decide (cfg.numLibraries ≤ 1) then .ok (0, false)
  else
    match scanRGTags r.rgTags "" with
    | .error e => .error e
    | .ok rgID =>
      if rgID = "" then .error "No RG tag is found in read"
      else
        match mapLookup cfg.rgidLibMap rgID with
        | some libID => .ok (libID, false)
        | none => .ok (0, true)

/-- One RG header line: its ID tag and its LB tag. -/
structure RGRecord where
  id : String
  lb : String
deriving DecidableEq, Repr

/-- The loop body of `Dedup::buildReadGroupLibraryMap`. -/
def buildRGLoop : List RGRecord → List (String × Nat) → List (String × Nat) → Nat →
    Except String (List (String × Nat) × Nat)
  | [], rgidLibMap, _, numLibraries => .ok (rgidLibMap, numLibraries)
  | h :: rest, rgidLibMap, libNameMap, numLibraries =>
    if h.id = "" then .error "Cannot find readGroup ID information in the header line"
    else if (mapLookup rgidLibMap h.id).isSome then
      .error "The readGroup ID is not a unique identifier"
    else
      match mapLookup libNameMap h.lb with
      | some libNum => buildRGLoop rest (rgidLibMap ++ [(h.id, libNum)]) libNameMap numLibraries
      | none =>
        buildRGLoop rest (rgidLibMap ++ [(h.id, libNameMap.length + 1)])
          (libNameMap ++ [(h.lb, libNameMap.length + 1)]) (libNameMap.length + 1)

/-- `Dedup::buildReadGroupLibraryMap`: builds the read-group-id to
library-id dictionary; more than 255 libraries is fatal. -/
def buildReadGroupLibraryMap (hdr : List RGRecord) :
    Except String (List (String × Nat) × Nat) :=
  match buildRGLoop hdr [] [] 0 with
  | .error e => .error e
  | .ok (m, n) => if 255 < n then .error "More than 255 library names are identified" else .ok (m, n)

/-- The `recordPaired` computation at the top of `Dedup::checkDups`:
paired with mapped mate, demoted by `oneChrom` when the mate is on
another chromosome. -/
def recordPairedOf (cfg : DedupCfg) (r : SamRecord) : Bool :=
  let rp := isPairedFlag r.flag && isMateMappedFlag r.flag
  if cfg.oneChrom && !(decide (r.refID = r.mateRefID)) then false else rp

/-- The fragment-map step of `Dedup::checkDups` (lines 515-559): insert
or fight over the entry at this key. -/
def fragmentPhase (st : DedupState) (key : DupKey) (q : Int) (rp : Bool)
    (r : SamRecord) (recordCount : Nat) : DedupState :=
  let ins := mapInsert DupKey.lt st.fragmentMap key ReadData.empty
  let m1 := ins.1
  let fresh := ins.2.1
  let readData := ins.2.2
  if fresh || (!readData.paired && (rp || decide (readData.sumBaseQual < q))) then
    let st1 :=
      if fresh then { st with fragmentMap := m1 }
      else
        { st with fragmentMap := m1
                  dupList := st.dupList ++ [readData.recordIndex]
                  released := st.released ++ readData.recordPtr.toList }
    { st1 with
        fragmentMap :=
          mapUpdate st1.fragmentMap key
            { sumBaseQual := q, recordIndex := recordCount, paired := rp
              recordPtr := if rp then none else some r } }
  else
    if !rp then
      { st with fragmentMap := m1
                dupList := st.dupList ++ [recordCount]
                released := st.released ++ [r] }
    else { st with fragmentMap := m1 }

/-- The mate-map search of `Dedup::checkDups`: find and remove the first
entry at this position whose record has the given read name. -/
def mateFind : List (Int × ReadData) → Int → String →
    Option (ReadData × SamRecord) × List (Int × ReadData)
  | [], _, _ => (none, [])
  | (p, d) :: rest, pos, name =>
    match d.recordPtr with
    | some rec =>
      if decide (p = pos) && decide (rec.readName = name) then (some (d, rec), rest)
      else
        let res := mateFind rest pos name
        (res.1, (p, d) :: res.2)
    | none =>
      let res := mateFind rest pos name
      (res.1, (p, d) :: res.2)

/-- The completed-pair step of `Dedup::checkDups` (lines 624-688):
insert the pair or fight over the existing entry by combined quality,
breaking ties toward the earlier first mate. -/
def pairedPhase (st : DedupState) (pkey : PairedKey) (q : Int) (r mrec : SamRecord)
    (recordCount mateIndex : Nat) : DedupState :=
  let ins := mapInsert PairedKey.lt st.pairedMap pkey PairedData.empty
  let m1 := ins.1
  let fresh := ins.2.1
  let stored := ins.2.2
  let newData : PairedData :=
    { sumBaseQual := q, record1Ptr := some r, record2Ptr := some mrec
      record1Index := recordCount, record2Index := mateIndex }
  if fresh then { st with pairedMap := mapUpdate m1 pkey newData }
  else
    let keepStored :=
      !(decide (stored.sumBaseQual < q) ||
        (decide (stored.sumBaseQual = q) && decide (mateIndex < stored.record2Index)))
    if keepStored then
      { st with pairedMap := m1
                dupList := st.dupList ++ [mateIndex, recordCount]
                released := st.released ++ [r, mrec] }
    else
      { st with pairedMap := mapUpdate m1 pkey newData
                dupList := st.dupList ++ [stored.record1Index, stored.record2Index]
                released := st.released ++ stored.record1Ptr.toList ++ stored.record2Ptr.toList }

/-- `Dedup::handleMissingMate`: count the missing mate and release the
record as a non-duplicate. -/
def handleMissingMate (st : DedupState) (r : Option SamRecord) : DedupState :=
  match r with
  | none => st
  | some rec =>
    { st with numMissingMate := st.numMissingMate + 1, released := st.released ++ [rec] }

/-- The mate-resolution tail of `Dedup::checkDups` (lines 561-688), run
only for paired records after the fragment-map step: probe the mate map
when the mate position is not ahead, then either complete the pair,
store the record to wait for its mate, or handle a missing mate. -/
def matePhase (cfg : DedupCfg) (st1 : DedupState) (key : DupKey) (q : Int)
    (r : SamRecord) (recordCount : Nat) : Except String DedupState :=
  let readPos := combineChromPos r.refID r.pos
  let matePos := combineChromPos r.mateRefID r.matePos
  let found :=
    if decide (matePos ≤ readPos) then mateFind st1.mateMap readPos r.readName
    else (none, st1.mateMap)
  match found.1 with
  | some md =>
    let st2 := { st1 with mateMap := found.2 }
    match getLibraryID cfg false md.2 with
    | .error e => .error e
    | .ok mlib =>
      let mateKey := updateKey md.2 mlib.1
      let pkey := PairedKey.make key mateKey
      .ok (pairedPhase st2 pkey (q + md.1.sumBaseQual) r md.2 recordCount md.1.recordIndex)
  | none =>
    if decide (readPos ≤ matePos) then
      .ok { st1 with
              mateMap :=
                multiInsert st1.mateMap matePos
                  { sumBaseQual := q, recordIndex := recordCount
                    paired := false, recordPtr := some r } }
    else .ok (handleMissingMate st1 (some r))

/-- `Dedup::checkDups` for a mapped record: fragment-map step, then for
paired records mate resolution and the completed-pair step. -/
def checkDups (cfg : DedupCfg) (st : DedupState) (r : SamRecord) (recordCount : Nat) :
    Except String DedupState :=
  match getLibraryID cfg false r with
  | .error e => .error e
  | .ok lib =>
    let key := updateKey r lib.1
    let rp := recordPairedOf cfg r
    let q := getBaseQuality cfg.minQual r
    let st1 := fragmentPhase st key q rp r recordCount
    if !rp then .ok st1
    else matePhase cfg st1 key q r recordCount

/-- The fragment-map cleanup bound: everything below the cutoff key of
the boundary record, or everything when there is no boundary. -/
def belowFrag (record : Option SamRecord) (k : DupKey) : Bool :=
  match record with
  | none => true
  | some r => DupKey.lt k (cleanupKey r.refID r.pos)

/-- The paired-map cleanup bound, built from the default key and the
cutoff key exactly as `cleanupPriorReads` builds its probe pair. -/
def belowPair (record : Option SamRecord) (k : PairedKey) : Bool :=
  match record with
  | none => true
  | some r => PairedKey.lt k (PairedKey.make emptyKey (cleanupKey r.refID r.pos))

/-- The mate-map cleanup bound: linearized positions before the
boundary record. -/
def belowMate (record : Option SamRecord) (pos : Int) : Bool :=
  match record with
  | none => true
  | some r => decide (pos < combineChromPos r.refID r.pos)

/-- `Dedup::cleanupPriorReads`: flush the prefix of each tracking map
that lies strictly below the cutoff derived from the boundary record
(everything if there is no boundary record).  Flushed unpaired fragment
entries and flushed pairs are released as non-duplicates; flushed mate
entries are counted as missing mates. -/
def cleanupPriorReads (st : DedupState) (record : Option SamRecord) : DedupState :=
  let fdrop := st.fragmentMap.takeWhile (fun p => belowFrag record p.1)
  let pdrop := st.pairedMap.takeWhile (fun p => belowPair record p.1)
  let mdrop := st.mateMap.takeWhile (fun p => belowMate record p.1)
  { st with
      fragmentMap := st.fragmentMap.dropWhile (fun p => belowFrag record p.1)
      pairedMap := st.pairedMap.dropWhile (fun p => belowPair record p.1)
      mateMap := st.mateMap.dropWhile (fun p => belowMate record p.1)
      released := st.released
        ++ fdrop.foldl (fun acc p => if p.2.paired then acc else acc ++ p.2.recordPtr.toList) []
        ++ pdrop.foldl (fun acc p => acc ++ p.2.record1Ptr.toList ++ p.2.record2Ptr.toList) []
        ++ mdrop.foldl (fun acc p => acc ++ p.2.recordPtr.toList) []
      numMissingMate :=
        st.numMissingMate + (mdrop.filter (fun p => p.2.recordPtr.isSome)).length }

/-- `Dedup::hasPositionChanged`: detect a new chromosome or a larger
coordinate, updating the trackers. -/
def hasPositionChanged (st : DedupState) (r : SamRecord) : Bool × DedupState :=
  if st.lastReference ≠ r.refID ∨ st.lastCoordinate < r.pos then
    (true, { st with lastReference := r.refID, lastCoordinate := r.pos })
  else (false, st)

/-- One iteration of the pass-1 read loop of `Dedup::execute`: the
already-duplicate-marked check, the position-change cleanup, then either
release (unmapped) or `checkDups`.  A fatal error carries the engine
state at the moment of the abort. -/
def pass1Step (cfg : DedupCfg) (st : DedupState) (r : SamRecord) (recordCount : Nat) :
    Except (DedupFatal × DedupState) DedupState :=
  if isDuplicateFlag r.flag && !cfg.forceFlag then
    .error (.alreadyMarked recordCount, st)
  else
    let pc := hasPositionChanged st r
    let st1 := if pc.1 then cleanupPriorReads pc.2 (some r) else pc.2
    if !isMappedFlag r.flag then .ok { st1 with released := st1.released ++ [r] }
    else
      match checkDups cfg st1 r recordCount with
      | .ok st2 => .ok st2
      | .error e => .error (.libraryFatal e, st1)

/-- The pass-1 read loop, numbering records from one in file order. -/
def pass1Loop (cfg : DedupCfg) : DedupState → Nat → List SamRecord →
    Except (DedupFatal × DedupState) DedupState
  | st, _, [] => .ok st
  | st, n, r :: rs =>
    match pass1Step cfg st r (n + 1) with
    | .error e => .error e
    | .ok st1 => pass1Loop cfg st1 (n + 1) rs

/-- Pass 1 of `Dedup::execute`: the read loop followed by the final
unbounded cleanup. -/
def runPass1 (cfg : DedupCfg) (recs : List SamRecord) :
    Except (DedupFatal × DedupState) DedupState :=
  match pass1Loop cfg initState 0 recs with
  | .error e => .error e
  | .ok st => .ok (cleanupPriorReads st none)

/-- Ascending insertion used to sort the duplicate list. -/
def insertAsc (n : Nat) : List Nat → List Nat
  | [] => [n]
  | m :: ms => if n ≤ m then n :: m :: ms else m :: insertAsc n ms

/-- The `std::sort` of the duplicate list before pass 2. -/
def sortDups (l : List Nat) : List Nat := l.foldr insertAsc []

/-- The state of the pass-2 write loop: the duplicate cursor, whether an
out-of-bounds read of the duplicate list has occurred, the written
records with their final flags, the indices marked as duplicates and the
duplicate counters. -/
structure Pass2State where
  cursor : Nat
  oob : Bool
  output : List (Nat × SamRecord)
  markedList : List Nat
  singleDuplicates : Nat
  pairedDuplicates : Nat
deriving DecidableEq, Repr

/-- The initial pass-2 state. -/
def pass2Init : Pass2State :=
  { cursor := 0, oob := false, output := [], markedList := []
    singleDuplicates := 0, pairedDuplicates := 0 }

/-- One iteration of the pass-2 write loop of `Dedup::execute`.
`moreDups` is computed once from the whole list and never cleared, so
when the duplicate list is nonempty the vector element at the cursor is
read unconditionally; a read past the end sets `oob` (undefined
behaviour in the C++ source) and is modelled as comparing unequal. -/
def pass2Step (dupList : List Nat) (removeFlag forceFlag : Bool)
    (st : Pass2State) (r : SamRecord) (currentIndex : Nat) : Pass2State :=
  let moreDups := !dupList.isEmpty
  let probed : Option Nat × Bool :=
    if moreDups then
      match dupList[st.cursor]? with
      | some v => (some v, false)
      | none => (none, true)
    else (none, false)
  let st := if probed.2 then { st with oob := true } else st
  let foundDup := match probed.1 with | some v => decide (currentIndex = v) | none => false
  if foundDup then
    let r' : SamRecord := { r with flag := r.flag + (if isDuplicateFlag r.flag then 0 else 1024) }
    let st :=
      { st with cursor := st.cursor + 1
                markedList := st.markedList ++ [currentIndex] }
    let st :=
      if !isPairedFlag r.flag || !isMateMappedFlag r.flag then
        { st with singleDuplicates := st.singleDuplicates + 1 }
      else { st with pairedDuplicates := st.pairedDuplicates + 1 }
    if removeFlag then st else { st with output := st.output ++ [(currentIndex, r')] }
  else
    let r' : SamRecord :=
      if forceFlag then { r with flag := r.flag - (if isDuplicateFlag r.flag then 1024 else 0) }
      else r
    { st with output := st.output ++ [(currentIndex, r')] }

/-- The pass-2 write loop, numbering records from one in file order. -/
def pass2Loop (dupList : List Nat) (removeFlag forceFlag : Bool) :
    Pass2State → Nat → List SamRecord → Pass2State
  | st, _, [] => st
  | st, n, r :: rs =>
    pass2Loop dupList removeFlag forceFlag
      (pass2Step dupList removeFlag forceFlag st r (n + 1)) (n + 1) rs

/-- Pass 2 of `Dedup::execute`. -/
def runPass2 (cfg : DedupCfg) (dupList : List Nat) (recs : List SamRecord) : Pass2State :=
  pass2Loop dupList cfg.removeFlag cfg.forceFlag pass2Init 0 recs

/-- The whole of `Dedup::execute` after argument parsing: pass 1, the
sort of the duplicate list, then pass 2 over the re-read input.  A fatal
condition in pass 1 aborts the run before the output file is opened. -/
def execute (cfg : DedupCfg) (recs : List SamRecord) :
    Except (DedupFatal × DedupState) (Pass2State × DedupState) :=
  match runPass1 cfg recs with
  | .error e => .error e
  | .ok st => .ok (runPass2 cfg (sortDups st.dupList) recs, st)

/-- The sorted duplicate list a run produces, when pass 1 completes. -/
def dupListOfRun (cfg : DedupCfg) (recs : List SamRecord) : Option (List Nat) :=
  match runPass1 cfg recs with
  | .ok st => some (sortDups st.dupList)
  | .error _ => none

/-- Whether the pass-2 co-iteration of a completed run read the
duplicate list out of bounds. -/
def oobOfRun (cfg : DedupCfg) (recs : List SamRecord) : Option Bool :=
  match execute cfg recs with
  | .ok p => some p.1.oob
  | .error _ => none

/-! Helper lemmas about the association-list operations. -/

theorem mapLookup_sortedInsert_self {κ α : Type} [DecidableEq κ] (lt : κ → κ → Bool)
    (m : List (κ × α)) (k : κ) (v : α) (h : mapLookup m k = none) :
    mapLookup (sortedInsert lt m k v) k = some v := by
  induction m with
  | nil => simp [sortedInsert, mapLookup]
  | cons p rest ih =>
    obtain ⟨k', v'⟩ := p
    rw [mapLookup] at h
    by_cases hk : k = k'
    · simp [hk] at h
    · rw [sortedInsert]
      split
      · simp [mapLookup]
      · rw [mapLookup, if_neg hk]
        exact ih (by rwa [if_neg hk] at h)

theorem mapLookup_mapUpdate_self {κ α : Type} [DecidableEq κ]
    (m : List (κ × α)) (k : κ) (v : α) (x : α) (h : mapLookup m k = some x) :
    mapLookup (mapUpdate m k v) k = some v := by
  induction m with
  | nil => simp [mapLookup] at h
  | cons p rest ih =>
    obtain ⟨k', v'⟩ := p
    by_cases hk : k = k'
    · subst hk
      simp only [mapUpdate, List.map_cons, if_true]
      rw [mapLookup, if_pos rfl]
    · rw [mapLookup, if_neg hk] at h
      have hne : ¬ ((k', v') : κ × α).1 = k := fun hh => hk hh.symm
      simp only [mapUpdate, List.map_cons, if_neg hne]
      rw [mapLookup, if_neg hk]
      exact ih h

theorem mapInsert_of_some {κ α : Type} [DecidableEq κ] (lt : κ → κ → Bool)
    (m : List (κ × α)) (k : κ) (v : α) (x : α) (h : mapLookup m k = some x) :
    mapInsert lt m k v = (m, false, x) := by
  rw [mapInsert, h]

theorem mapInsert_of_none {κ α : Type} [DecidableEq κ] (lt : κ → κ → Bool)
    (m : List (κ × α)) (k : κ) (v : α) (h : mapLookup m k = none) :
    mapInsert lt m k v = (sortedInsert lt m k v, true, v) := by
  rw [mapInsert, h]

theorem dropWhile_triv {α : Type} (l : List α) : l.dropWhile (fun _ => true) = [] := by
  induction l with
  | nil => rfl
  | cons a l ih => rw [List.dropWhile_cons]; simp only [if_pos rfl]; exact ih

theorem mem_dropWhile_of_not {α : Type} (p : α → Bool) (l : List α) (x : α)
    (hx : x ∈ l) (hpx : p x = false) : x ∈ l.dropWhile p := by
  induction l with
  | nil => cases hx
  | cons a l ih =>
    rw [List.dropWhile_cons]
    by_cases ha : p a = true
    · rw [if_pos ha]
      rcases List.mem_cons.1 hx with h | h
      · subst h; rw [hpx] at ha; cases ha
      · exact ih h
    · rw [if_neg ha]
      exact hx

theorem dropWhile_true_all {α : Type} (p : α → Bool) (l : List α)
    (h : ∀ x ∈ l, p x = true) : l.dropWhile p = [] := by
  induction l with
  | nil => rfl
  | cons a l ih =>
    rw [List.dropWhile_cons, if_pos (h a (List.mem_cons_self a l))]
    exact ih fun x hx => h x (List.mem_cons_of_mem a hx)

theorem prop_of_not_mem_dropWhile {α : Type} (p : α → Bool) (l : List α) (x : α)
    (hx : x ∈ l) (hnot : x ∉ l.dropWhile p) : p x = true := by
  induction l with
  | nil => cases hx
  | cons a l ih =>
    rw [List.dropWhile_cons] at hnot
    by_cases ha : p a = true
    · rw [if_pos ha] at hnot
      rcases List.mem_cons.1 hx with h | h
      · subst h; exact ha
      · exact ih h hnot
    · rw [if_neg ha] at hnot
      exact absurd hx hnot

/-! Helper lemmas about the engine operations. -/

theorem getLibraryID_default (cfg : DedupCfg) (r : SamRecord)
    (h : cfg.numLibraries ≤ 1) : getLibraryID cfg false r = .ok (0, false) := by
  simp [getLibraryID, h]

theorem fragmentPhase_of_none (st : DedupState) (key : DupKey) (q : Int) (rp : Bool)
    (r : SamRecord) (rc : Nat) (h : mapLookup st.fragmentMap key = none) :
    fragmentPhase st key q rp r rc =
      { st with
          fragmentMap :=
            mapUpdate (sortedInsert DupKey.lt st.fragmentMap key ReadData.empty) key
              { sumBaseQual := q, recordIndex := rc, paired := rp
                recordPtr := if rp then none else some r } } := by
  rw [fragmentPhase, mapInsert_of_none DupKey.lt _ _ _ h]
  rfl

theorem fragmentPhase_of_some (st : DedupState) (key : DupKey) (q : Int) (rp : Bool)
    (r : SamRecord) (rc : Nat) (old : ReadData)
    (h : mapLookup st.fragmentMap key = some old) :
    fragmentPhase st key q rp r rc =
      if !old.paired && (rp || decide (old.sumBaseQual < q)) then
        { st with
            fragmentMap :=
              mapUpdate st.fragmentMap key
                { sumBaseQual := q, recordIndex := rc, paired := rp
                  recordPtr := if rp then none else some r }
            dupList := st.dupList ++ [old.recordIndex]
            released := st.released ++ old.recordPtr.toList }
      else if !rp then
        { st with dupList := st.dupList ++ [rc], released := st.released ++ [r] }
      else st := by
  rw [fragmentPhase, mapInsert_of_some DupKey.lt _ _ _ _ h]
  simp only [Bool.false_or]
  split
  · rfl
  · split <;> rfl

theorem fragmentPhase_frame (st : DedupState) (key : DupKey) (q : Int) (rp : Bool)
    (r : SamRecord) (rc : Nat) :
    (fragmentPhase st key q rp r rc).mateMap = st.mateMap
  ∧ (fragmentPhase st key q rp r rc).pairedMap = st.pairedMap
  ∧ (fragmentPhase st key q rp r rc).numMissingMate = st.numMissingMate := by
  cases h : mapLookup st.fragmentMap key with
  | none =>
    rw [fragmentPhase_of_none st key q rp r rc h]
    exact ⟨rfl, rfl, rfl⟩
  | some old =>
    rw [fragmentPhase_of_some st key q rp r rc old h]
    split
    · exact ⟨rfl, rfl, rfl⟩
    · split
      · exact ⟨rfl, rfl, rfl⟩
      · exact ⟨rfl, rfl, rfl⟩

theorem fragmentPhase_dupList (st : DedupState) (key : DupKey) (q : Int) (rp : Bool)
    (r : SamRecord) (rc : Nat) :
    (fragmentPhase st key q rp r rc).dupList = st.dupList
  ∨ (∃ old, mapLookup st.fragmentMap key = some old
       ∧ (fragmentPhase st key q rp r rc).dupList = st.dupList ++ [old.recordIndex])
  ∨ (rp = false ∧ (fragmentPhase st key q rp r rc).dupList = st.dupList ++ [rc]) := by
  cases h : mapLookup st.fragmentMap key with
  | none =>
    left
    rw [fragmentPhase_of_none st key q rp r rc h]
  | some old =>
    rw [fragmentPhase_of_some st key q rp r rc old h]
    split
    · right; left; exact ⟨old, rfl, rfl⟩
    · split
      next h2 =>
        right; right
        simp only [Bool.not_eq_true'] at h2
        exact ⟨h2, rfl⟩
      next h2 => left; rfl

theorem pairedPhase_of_none (st : DedupState) (pkey : PairedKey) (q : Int)
    (r mrec : SamRecord) (rc mi : Nat) (h : mapLookup st.pairedMap pkey = none) :
    pairedPhase st pkey q r mrec rc mi =
      { st with
          pairedMap :=
            mapUpdate (sortedInsert PairedKey.lt st.pairedMap pkey PairedData.empty) pkey
              { sumBaseQual := q, record1Ptr := some r, record2Ptr := some mrec
                record1Index := rc, record2Index := mi } } := by
  rw [pairedPhase, mapInsert_of_none PairedKey.lt _ _ _ h]
  rfl

theorem pairedPhase_of_some (st : DedupState) (pkey : PairedKey) (q : Int)
    (r mrec : SamRecord) (rc mi : Nat) (stored : PairedData)
    (h : mapLookup st.pairedMap pkey = some stored) :
    pairedPhase st pkey q r mrec rc mi =
      if !(decide (stored.sumBaseQual < q) ||
           (decide (stored.sumBaseQual = q) && decide (mi < stored.record2Index))) then
        { st with dupList := st.dupList ++ [mi, rc]
                  released := st.released ++ [r, mrec] }
      else
        { st with
            pairedMap :=
              mapUpdate st.pairedMap pkey
                { sumBaseQual := q, record1Ptr := some r, record2Ptr := some mrec
                  record1Index := rc, record2Index := mi }
            dupList := st.dupList ++ [stored.record1Index, stored.record2Index]
            released := st.released ++ stored.record1Ptr.toList ++ stored.record2Ptr.toList } := by
  rw [pairedPhase, mapInsert_of_some PairedKey.lt _ _ _ _ h]
  rfl

theorem pairedPhase_frame (st : DedupState) (pkey : PairedKey) (q : Int)
    (r mrec : SamRecord) (rc mi : Nat) :
    (pairedPhase st pkey q r mrec rc mi).fragmentMap = st.fragmentMap
  ∧ (∃ t, (pairedPhase st pkey q r mrec rc mi).dupList = st.dupList ++ t)
  ∧ (∃ t, (pairedPhase st pkey q r mrec rc mi).released = st.released ++ t)
  ∧ (pairedPhase st pkey q r mrec rc mi).mateMap = st.mateMap
  ∧ (pairedPhase st pkey q r mrec rc mi).numMissingMate = st.numMissingMate := by
  cases h : mapLookup st.pairedMap pkey with
  | none =>
    rw [pairedPhase_of_none st pkey q r mrec rc mi h]
    exact ⟨rfl, ⟨[], (List.append_nil _).symm⟩, ⟨[], (List.append_nil _).symm⟩, rfl, rfl⟩
  | some stored =>
    rw [pairedPhase_of_some st pkey q r mrec rc mi stored h]
    split
    · exact ⟨rfl, ⟨[mi, rc], rfl⟩, ⟨[r, mrec], rfl⟩, rfl, rfl⟩
    · exact ⟨rfl, ⟨[stored.record1Index, stored.record2Index], rfl⟩,
        ⟨stored.record1Ptr.toList ++ stored.record2Ptr.toList, List.append_assoc _ _ _⟩,
        rfl, rfl⟩

theorem matePhase_shape (cfg : DedupCfg) (st1 : DedupState) (key : DupKey) (q : Int)
    (r : SamRecord) (rc : Nat) (st' : DedupState) (hlib : cfg.numLibraries ≤ 1)
    (hok : matePhase cfg st1 key q r rc = .ok st') :
    st'.fragmentMap = st1.fragmentMap
  ∧ (∃ t, st'.dupList = st1.dupList ++ t)
  ∧ (∃ t, st'.released = st1.released ++ t) := by
  rw [matePhase] at hok
  dsimp only at hok
  split at hok
  · next md heq =>
    rw [getLibraryID_default cfg md.2 hlib] at hok
    dsimp only at hok
    simp only [Except.ok.injEq] at hok
    subst hok
    exact ⟨(pairedPhase_frame _ _ _ _ _ _ _).1.trans rfl,
      (pairedPhase_frame _ _ _ _ _ _ _).2.1,
      (pairedPhase_frame _ _ _ _ _ _ _).2.2.1⟩
  · next heq =>
    split at hok
    · simp only [Except.ok.injEq] at hok
      subst hok
      exact ⟨rfl, ⟨[], (List.append_nil _).symm⟩, ⟨[], (List.append_nil _).symm⟩⟩
    · rw [handleMissingMate] at hok
      simp only [Except.ok.injEq] at hok
      subst hok
      exact ⟨rfl, ⟨[], (List.append_nil _).symm⟩, ⟨[r], rfl⟩⟩

theorem matePhase_missing (cfg : DedupCfg) (st1 : DedupState) (key : DupKey) (q : Int)
    (r : SamRecord) (rc : Nat)
    (hlt : combineChromPos r.mateRefID r.matePos < combineChromPos r.refID r.pos)
    (hnone : (mateFind st1.mateMap (combineChromPos r.refID r.pos) r.readName).1 = none) :
    matePhase cfg st1 key q r rc = .ok (handleMissingMate st1 (some r)) := by
  rw [matePhase]
  dsimp only
  rw [if_pos (decide_eq_true (le_of_lt hlt))]
  rw [hnone]
  dsimp only
  rw [if_neg (by simp only [decide_eq_true_eq, not_le]; exact hlt)]

theorem checkDups_shape (cfg : DedupCfg) (st : DedupState) (r : SamRecord) (rc : Nat)
    (st' : DedupState) (hlib : cfg.numLibraries ≤ 1)
    (hok : checkDups cfg st r rc = .ok st') :
    st'.fragmentMap =
      (fragmentPhase st (updateKey r 0) (getBaseQuality cfg.minQual r)
        (recordPairedOf cfg r) r rc).fragmentMap
  ∧ (∃ t, st'.dupList =
      (fragmentPhase st (updateKey r 0) (getBaseQuality cfg.minQual r)
        (recordPairedOf cfg r) r rc).dupList ++ t)
  ∧ (∃ t, st'.released =
      (fragmentPhase st (updateKey r 0) (getBaseQuality cfg.minQual r)
        (recordPairedOf cfg r) r rc).released ++ t) := by
  rw [checkDups, getLibraryID_default cfg r hlib] at hok
  dsimp only at hok
  cases hrp : recordPairedOf cfg r with
  | false =>
    rw [hrp] at hok
    rw [if_pos (show (!false : Bool) = true from rfl)] at hok
    simp only [Except.ok.injEq] at hok
    subst hok
    exact ⟨rfl, ⟨[], (List.append_nil _).symm⟩, ⟨[], (List.append_nil _).symm⟩⟩
  | true =>
    rw [hrp] at hok
    rw [if_neg (show ¬ ((!true : Bool) = true) from by simp)] at hok
    exact matePhase_shape cfg _ _ _ r rc st' hlib hok

theorem checkDups_unpaired (cfg : DedupCfg) (st : DedupState) (r : SamRecord) (rc : Nat)
    (hrp : recordPairedOf cfg r = false) (hlib : cfg.numLibraries ≤ 1) :
    checkDups cfg st r rc =
      .ok (fragmentPhase st (updateKey r 0) (getBaseQuality cfg.minQual r) false r rc) := by
  rw [checkDups, getLibraryID_default cfg r hlib]
  dsimp only
  rw [hrp]
  rfl

theorem checkDups_missing_mate_eq (cfg : DedupCfg) (st : DedupState) (r : SamRecord)
    (rc : Nat) (hlib : cfg.numLibraries ≤ 1) (hrp : recordPairedOf cfg r = true)
    (hlt : combineChromPos r.mateRefID r.matePos < combineChromPos r.refID r.pos)
    (hnone : (mateFind st.mateMap (combineChromPos r.refID r.pos) r.readName).1 = none) :
    checkDups cfg st r rc =
      .ok (handleMissingMate
        (fragmentPhase st (updateKey r 0) (getBaseQuality cfg.minQual r) true r rc)
        (some r)) := by
  rw [checkDups, getLibraryID_default cfg r hlib]
  dsimp only
  rw [hrp]
  simp only [Bool.not_true, Bool.false_eq_true, if_false]
  refine matePhase_missing cfg _ _ _ r rc hlt ?_
  rw [(fragmentPhase_frame st (updateKey r 0) (getBaseQuality cfg.minQual r) true r rc).1]
  exact hnone

theorem pass1Loop_ok_no_marked (cfg : DedupCfg) (recs : List SamRecord) :
    ∀ st n st', pass1Loop cfg st n recs = .ok st' →
      ∀ r ∈ recs, ¬(isDuplicateFlag r.flag = true ∧ cfg.forceFlag = false) := by
  induction recs with
  | nil => intro st n st' _ r hr; cases hr
  | cons a rs ih =>
    intro st n st' h r hr
    rw [pass1Loop] at h
    cases hstep : pass1Step cfg st a (n + 1) with
    | error e => rw [hstep] at h; cases h
    | ok st1 =>
      rw [hstep] at h
      rcases List.mem_cons.1 hr with rfl | hr'
      · rintro ⟨hdup, hforce⟩
        rw [pass1Step, if_pos (by simp [hdup, hforce])] at hstep
        cases hstep
      · exact ih st1 (n + 1) st' h r hr'

theorem cleanup_none_empties (st : DedupState) :
    (cleanupPriorReads st none).fragmentMap = []
  ∧ (cleanupPriorReads st none).pairedMap = []
  ∧ (cleanupPriorReads st none).mateMap = [] :=
  ⟨dropWhile_true_all _ _ (fun _ _ => rfl),
   dropWhile_true_all _ _ (fun _ _ => rfl),
   dropWhile_true_all _ _ (fun _ _ => rfl)⟩

theorem pass2Step_marked_mem (L : List Nat) (rm ff : Bool) (st : Pass2State)
    (r : SamRecord) (i x : Nat)
    (hx : x ∈ (pass2Step L rm ff st r i).markedList) : x ∈ st.markedList ∨ x ∈ L := by
  by_cases hmd : L.isEmpty
  · obtain rfl : L = [] := by simpa [List.isEmpty_iff] using hmd
    simp [pass2Step] at hx
    exact Or.inl hx
  · cases hget : L[st.cursor]? with
    | none =>
      simp [pass2Step, hmd, hget] at hx
      exact Or.inl hx
    | some v =>
      by_cases hiv : i = v
      · subst hiv
        simp [pass2Step, hmd, hget, apply_ite Pass2State.markedList] at hx
        rcases hx with h | h
        · exact Or.inl h
        · subst h
          exact Or.inr (List.getElem?_mem hget)
      · simp [pass2Step, hmd, hget, hiv] at hx
        exact Or.inl hx

theorem pass2Loop_marked_mem (L : List Nat) (rm ff : Bool) (recs : List SamRecord) :
    ∀ st n x, x ∈ (pass2Loop L rm ff st n recs).markedList → x ∈ st.markedList ∨ x ∈ L := by
  induction recs with
  | nil => intro st n x hx; exact Or.inl hx
  | cons a rs ih =>
    intro st n x hx
    rcases ih _ (n + 1) x hx with h | h
    · exact pass2Step_marked_mem L rm ff st a (n + 1) x h
    · exact Or.inr h

theorem runPass2_marked_mem (cfg : DedupCfg) (L : List Nat) (recs : List SamRecord)
    (x : Nat) (hx : x ∈ (runPass2 cfg L recs).markedList) : x ∈ L := by
  rcases pass2Loop_marked_mem L cfg.removeFlag cfg.forceFlag recs pass2Init 0 x hx with h | h
  · cases h
  · exact h

theorem getBaseQuality_foldl (mq : Int) (l : List Int) (acc : Int) :
    l.foldl (fun a c => if mq ≤ c - 33 then a + (c - 33) else a) acc
      = acc + ((l.map (fun c => c - 33)).filter (fun q => decide (mq ≤ q))).sum := by
  induction l generalizing acc with
  | nil => simp
  | cons c l ih =>
    simp only [List.foldl_cons, List.map_cons, List.filter_cons]
    by_cases h : mq ≤ c - 33
    · rw [if_pos h, ih, if_pos (decide_eq_true h), List.sum_cons]
      omega
    · rw [if_neg h, ih, if_neg (by simp [h])]

/-! Concrete configurations and records used as witnesses. -/

/-- A configuration with no read groups, quality floor zero, and no
optional flags. -/
def plainCfg : DedupCfg :=
  { minQual := 0, oneChrom := false, forceFlag := false, removeFlag := false
    rgidLibMap := [], numLibraries := 0 }

/-- An unpaired mapped read at reference 0 position 100 with a single
base of the given phred quality. -/
def singleRead (name : String) (q : Int) : SamRecord :=
  { flag := 0, refID := 0, pos := 100, mateRefID := -1, matePos := -1
    readName := name, qual := [q + 33], clip := 0, rgTags := [] }

/-- The boundary-scenario input: three single-end reads at one key with
quality sums 10, 25, 10, in that order. -/
def tripleReads : List SamRecord :=
  [singleRead "r1" 10, singleRead "r2" 25, singleRead "r3" 10]

/-- Two single-end reads at one key with quality sums 10 and 25: read 1
becomes the lone duplicate, and pass 2 then probes the duplicate list
at cursor 1 while reading record 2. -/
def twoReads : List SamRecord := [singleRead "a" 10, singleRead "b" 25]

/-- The engine state pass 1 ends in on the boundary-scenario input. -/
def drainState : DedupState :=
  match runPass1 plainCfg tripleReads with
  | .ok st => st
  | .error _ => initState

/-- C4: after the final unbounded cleanup at the end of pass 1, the
fragment map, the paired map and the mate-wait map are all empty. -/
theorem dedup_c4_map_drain (cfg : DedupCfg) (recs : List SamRecord) (st' : DedupState)
    (hok : runPass1 cfg recs = .ok st') :
    st'.fragmentMap = [] ∧ st'.pairedMap = [] ∧ st'.mateMap = [] := by
  rw [runPass1] at hok
  cases hloop : pass1Loop cfg initState 0 recs with
  | error e => rw [hloop] at hok; cases hok
  | ok st0 =>
    rw [hloop] at hok
    simp only [Except.ok.injEq] at hok
    subst hok
    exact cleanup_none_empties st0

theorem dedup_c4_map_drain_witness :
    runPass1 plainCfg tripleReads = .ok drainState
  ∧ drainState.fragmentMap = [] ∧ drainState.pairedMap = [] ∧ drainState.mateMap = [] :=
  ⟨rfl, dedup_c4_map_drain plainCfg tripleReads drainState rfl⟩

/-- C5: a bounded cleanup keeps every tracking-map entry whose key or
linearized position is at or after the cutoff derived from the boundary
record, and everything it removes lies strictly below the cutoff. -/
theorem cleanupPriorReads_maps (st : DedupState) (record : Option SamRecord) :
    (cleanupPriorReads st record).fragmentMap
        = st.fragmentMap.dropWhile (fun p => belowFrag record p.1)
  ∧ (cleanupPriorReads st record).pairedMap
        = st.pairedMap.dropWhile (fun p => belowPair record p.1)
  ∧ (cleanupPriorReads st record).mateMap
        = st.mateMap.dropWhile (fun p => belowMate record p.1) :=
  ⟨rfl, rfl, rfl⟩

set_option maxHeartbeats 1000000 in
theorem dedup_c5_cleanup_frame (st : DedupState) (r : SamRecord) :
    (∀ e ∈ st.fragmentMap, belowFrag (some r) e.1 = false →
        e ∈ (cleanupPriorReads st (some r)).fragmentMap)
  ∧ (∀ e ∈ st.fragmentMap, e ∉ (cleanupPriorReads st (some r)).fragmentMap →
        belowFrag (some r) e.1 = true)
  ∧ (∀ e ∈ st.pairedMap, belowPair (some r) e.1 = false →
        e ∈ (cleanupPriorReads st (some r)).pairedMap)
  ∧ (∀ e ∈ st.pairedMap, e ∉ (cleanupPriorReads st (some r)).pairedMap →
        belowPair (some r) e.1 = true)
  ∧ (∀ e ∈ st.mateMap, belowMate (some r) e.1 = false →
        e ∈ (cleanupPriorReads st (some r)).mateMap)
  ∧ (∀ e ∈ st.mateMap, e ∉ (cleanupPriorReads st (some r)).mateMap →
        belowMate (some r) e.1 = true) := by
  obtain ⟨hf, hp, hm⟩ := cleanupPriorReads_maps st (some r)
  rw [hf, hp, hm]
  refine ⟨?_, ?_, ?_, ?_, ?_, ?_⟩
  · exact fun e he hb =>
      mem_dropWhile_of_not (fun p => belowFrag (some r) p.1) st.fragmentMap e he hb
  · exact fun e he hb =>
      prop_of_not_mem_dropWhile (fun p => belowFrag (some r) p.1) st.fragmentMap e he hb
  · exact fun e he hb =>
      mem_dropWhile_of_not (fun p => belowPair (some r) p.1) st.pairedMap e he hb
  · exact fun e he hb =>
      prop_of_not_mem_dropWhile (fun p => belowPair (some r) p.1) st.pairedMap e he hb
  · exact fun e he hb =>
      mem_dropWhile_of_not (fun p => belowMate (some r) p.1) st.mateMap e he hb
  · exact fun e he hb =>
      prop_of_not_mem_dropWhile (fun p => belowMate (some r) p.1) st.mateMap e he hb

/-- A boundary record at reference 0 position 5000, giving the cutoff
key (0, 4000) and the linearized cutoff 5000. -/
def cleanupProbe : SamRecord :=
  { flag := 0, refID := 0, pos := 5000, mateRefID := -1, matePos := -1
    readName := "c", qual := [58], clip := 0, rgTags := [] }

/-- A state holding one entry below and one entry above the cutoff of
`cleanupProbe` in each tracking map. -/
def probeState : DedupState :=
  { initState with
      fragmentMap :=
        [(⟨0, 10, false, 0⟩, ReadData.empty), (⟨0, 4500, false, 0⟩, ReadData.empty)]
      pairedMap :=
        [(⟨⟨0, 10, false, 0⟩, ⟨0, 20, false, 0⟩⟩, PairedData.empty),
         (⟨⟨0, 10, false, 0⟩, ⟨0, 4500, false, 0⟩⟩, PairedData.empty)]
      mateMap := [(100, ReadData.empty), (6000, ReadData.empty)] }

theorem dedup_c5_cleanup_frame_witness :
    ((⟨0, 4500, false, 0⟩ : DupKey), ReadData.empty) ∈
      (cleanupPriorReads probeState (some cleanupProbe)).fragmentMap
  ∧ ((⟨⟨0, 10, false, 0⟩, ⟨0, 4500, false, 0⟩⟩ : PairedKey), PairedData.empty) ∈
      (cleanupPriorReads probeState (some cleanupProbe)).pairedMap
  ∧ ((6000 : Int), ReadData.empty) ∈
      (cleanupPriorReads probeState (some cleanupProbe)).mateMap :=
  ⟨(dedup_c5_cleanup_frame probeState cleanupProbe).1 _ (by decide) (by decide),
   (dedup_c5_cleanup_frame probeState cleanupProbe).2.2.1 _ (by decide) (by decide),
   (dedup_c5_cleanup_frame probeState cleanupProbe).2.2.2.2.1 _ (by decide) (by decide)⟩

/-- A header defining two read groups in two distinct libraries. -/
def rgHeader : List RGRecord := [⟨"rg1", "L1"⟩, ⟨"rg2", "L2"⟩]

/-- The configuration built from `rgHeader`. -/
def rgCfg : DedupCfg :=
  { minQual := 15, oneChrom := false, forceFlag := false, removeFlag := false
    rgidLibMap := [("rg1", 1), ("rg2", 2)], numLibraries := 2 }

/-- A read whose RG tag resolves to no read group of `rgHeader`. -/
def unresolvedRead : SamRecord :=
  { flag := 0, refID := 0, pos := 5, mateRefID := -1, matePos := -1
    readName := "x", qual := [58], clip := 0, rgTags := ["rgX"] }

/-- C7: contrary to the claim, a record whose read-group tag does not
resolve in the header-built dictionary does not abort the run: the code
takes the warning branch and returns library id 0, continuing, even
though the adjacent fatal branches and the stale comment on this path
show the abort was intended. -/
theorem dedup_c7_unresolved_rg :
    buildReadGroupLibraryMap rgHeader = .ok (rgCfg.rgidLibMap, rgCfg.numLibraries)
  ∧ getLibraryID rgCfg false unresolvedRead = .ok (0, true) := by
  constructor <;> rfl

/-- A read with a single base whose phred quality equals the default
floor of 15. -/
def floorRead : SamRecord :=
  { flag := 0, refID := 0, pos := 100, mateRefID := -1, matePos := -1
    readName := "f", qual := [48], clip := 0, rgTags := [] }

/-- C9 counterexample: a base whose quality equals the floor is counted
and contributes its value, so the sum is 15 rather than the 0 the claim
requires. -/
theorem dedup_c9_counterexample :
    getBaseQuality DEFAULT_MIN_QUAL floorRead = 15 ∧
    getBaseQuality DEFAULT_MIN_QUAL floorRead ≠ 0 := by
  constructor <;> decide

/-- C9 (amended): the summed base quality counts exactly the bases whose
phred quality is at least the floor; a base equal to the floor
contributes its value. -/
theorem dedup_c9_base_quality_floor (minQual : Int) (r : SamRecord) :
    getBaseQuality minQual r =
      if r.qual = [42] then 0
      else ((r.qual.map (fun c => c - 33)).filter (fun q => decide (minQual ≤ q))).sum := by
  rw [getBaseQuality]
  split
  · rfl
  · rw [getBaseQuality_foldl]
    simp

/-- C10: contrary to the claim, the pass-2 co-iteration reads the
duplicate list out of bounds: on an input whose last record is not a
duplicate, `moreDups` is never cleared, so after the lone duplicate
index is consumed the next record probes the list at its length. -/
theorem dedup_c10_pass2_oob :
    dupListOfRun plainCfg twoReads = some [1]
  ∧ oobOfRun plainCfg twoReads = some true := by
  constructor <;> rfl

/-- C1: the fragment-map entry at the key of a mapped record is
replaced exactly when the key was inserted fresh, or the existing entry
is unpaired and the record is paired-with-mapped-mate or has a strictly
higher quality sum.  On replacement the superseded entry joins the
duplicate list and its record is released; when the existing entry wins
and the record is unpaired, the record itself joins the duplicate list
and is released. -/
theorem dedup_c1_fragment_decision (cfg : DedupCfg) (st : DedupState) (r : SamRecord)
    (rc : Nat) (st' : DedupState) (hlib : cfg.numLibraries ≤ 1)
    (hok : checkDups cfg st r rc = .ok st') :
    (mapLookup st.fragmentMap (updateKey r 0) = none →
       mapLookup st'.fragmentMap (updateKey r 0) =
         some { sumBaseQual := getBaseQuality cfg.minQual r, recordIndex := rc
                paired := recordPairedOf cfg r
                recordPtr := if recordPairedOf cfg r then none else some r })
  ∧ (∀ old, mapLookup st.fragmentMap (updateKey r 0) = some old →
      ((old.paired = false ∧ (recordPairedOf cfg r = true ∨
           old.sumBaseQual < getBaseQuality cfg.minQual r)) →
         mapLookup st'.fragmentMap (updateKey r 0) =
           some { sumBaseQual := getBaseQuality cfg.minQual r, recordIndex := rc
                  paired := recordPairedOf cfg r
                  recordPtr := if recordPairedOf cfg r then none else some r }
         ∧ old.recordIndex ∈ st'.dupList
         ∧ (∀ p, old.recordPtr = some p → p ∈ st'.released))
      ∧ (¬(old.paired = false ∧ (recordPairedOf cfg r = true ∨
           old.sumBaseQual < getBaseQuality cfg.minQual r)) →
         mapLookup st'.fragmentMap (updateKey r 0) = some old
         ∧ (recordPairedOf cfg r = false → rc ∈ st'.dupList ∧ r ∈ st'.released))) := by
  obtain ⟨hfm, ⟨t1, ht1⟩, ⟨t2, ht2⟩⟩ := checkDups_shape cfg st r rc st' hlib hok
  constructor
  · intro hnone
    rw [hfm, fragmentPhase_of_none st (updateKey r 0) (getBaseQuality cfg.minQual r)
      (recordPairedOf cfg r) r rc hnone]
    exact mapLookup_mapUpdate_self _ _ _ _
      (mapLookup_sortedInsert_self DupKey.lt _ _ _ hnone)
  · intro old hold
    have hfs := fragmentPhase_of_some st (updateKey r 0) (getBaseQuality cfg.minQual r)
      (recordPairedOf cfg r) r rc old hold
    constructor
    · intro hcond
      have hb : (!old.paired && (recordPairedOf cfg r ||
          decide (old.sumBaseQual < getBaseQuality cfg.minQual r))) = true := by
        rcases hcond with ⟨hp, hc | hc⟩ <;> simp [hp, hc]
      rw [hfs, if_pos hb] at hfm ht1 ht2
      refine ⟨?_, ?_, ?_⟩
      · rw [hfm]
        exact mapLookup_mapUpdate_self _ _ _ _ hold
      · rw [ht1]
        simp
      · intro p hp
        rw [ht2, hp]
        simp
    · intro hcond
      have hb : ¬((!old.paired && (recordPairedOf cfg r ||
          decide (old.sumBaseQual < getBaseQuality cfg.minQual r))) = true) := by
        intro hb
        apply hcond
        simp only [Bool.and_eq_true, Bool.not_eq_true', Bool.or_eq_true,
          decide_eq_true_eq] at hb
        exact ⟨hb.1, hb.2⟩
      rw [hfs, if_neg hb] at hfm ht1 ht2
      cases hrp : recordPairedOf cfg r with
      | true =>
        rw [hrp] at hfm ht1 ht2
        rw [if_neg (show ¬ ((!true : Bool) = true) from by simp)] at hfm ht1 ht2
        refine ⟨by rw [hfm]; exact hold, ?_⟩
        intro hfalse
        exact absurd hfalse (by simp)
      | false =>
        rw [hrp] at hfm ht1 ht2
        rw [if_pos (show (!false : Bool) = true from rfl)] at hfm ht1 ht2
        refine ⟨by rw [hfm]; exact hold, ?_⟩
        intro _
        constructor
        · rw [ht1]; simp
        · rw [ht2]; simp

/-- The prior fragment-map entry used by the C1 and C3 witnesses. -/
def priorEntry : ReadData :=
  { sumBaseQual := 10, recordIndex := 1, paired := false
    recordPtr := some (singleRead "r1" 10) }

/-- A state whose fragment map holds `priorEntry` at the shared key. -/
def priorState : DedupState :=
  { initState with fragmentMap := [(updateKey (singleRead "r1" 10) 0, priorEntry)] }

/-- The state after a higher-quality unpaired read hits `priorState`. -/
def replacedState : DedupState :=
  match checkDups plainCfg priorState (singleRead "r2" 25) 2 with
  | .ok st => st
  | .error _ => initState

theorem dedup_c1_fragment_decision_witness :
    checkDups plainCfg priorState (singleRead "r2" 25) 2 = .ok replacedState
  ∧ (mapLookup replacedState.fragmentMap (updateKey (singleRead "r2" 25) 0) =
       some { sumBaseQual := 25, recordIndex := 2, paired := false
              recordPtr := some (singleRead "r2" 25) }
     ∧ (1 : Nat) ∈ replacedState.dupList
     ∧ singleRead "r1" 10 ∈ replacedState.released) := by
  refine ⟨rfl, ?_⟩
  have h := (dedup_c1_fragment_decision plainCfg priorState (singleRead "r2" 25) 2
    replacedState (by decide) rfl).2 priorEntry rfl
  obtain ⟨h1, h2, h3⟩ := h.1 ⟨rfl, Or.inr (by decide)⟩
  exact ⟨h1, h2, h3 _ rfl⟩

/-- C2: with a pair already stored at a pair key, the incoming completed
pair wins exactly when its combined quality sum is higher, or the sums
tie and its first mate (the mate-map record, whose index is below the
current record count) has the earlier file-order index than the stored
pair first mate (its record2Index); the losing pair contributes both of
its record indices to the duplicate list and both of its records to the
pool, and the winner data is what the map stores afterwards. -/
theorem dedup_c2_pair_decision (st : DedupState) (pkey : PairedKey) (q : Int)
    (r mrec : SamRecord) (rc mi : Nat) (stored : PairedData)
    (hstored : mapLookup st.pairedMap pkey = some stored)
    (_hfirstStored : stored.record2Index < stored.record1Index)
    (_hfirstNew : mi < rc)
    (_hne : mi ≠ stored.record2Index) :
    (stored.sumBaseQual < q ∨ (stored.sumBaseQual = q ∧ mi < stored.record2Index) →
       mapLookup (pairedPhase st pkey q r mrec rc mi).pairedMap pkey =
         some { sumBaseQual := q, record1Ptr := some r, record2Ptr := some mrec
                record1Index := rc, record2Index := mi }
       ∧ (pairedPhase st pkey q r mrec rc mi).dupList =
           st.dupList ++ [stored.record1Index, stored.record2Index]
       ∧ (∀ p, stored.record1Ptr = some p → p ∈ (pairedPhase st pkey q r mrec rc mi).released)
       ∧ (∀ p, stored.record2Ptr = some p → p ∈ (pairedPhase st pkey q r mrec rc mi).released))
  ∧ (¬(stored.sumBaseQual < q ∨ (stored.sumBaseQual = q ∧ mi < stored.record2Index)) →
       mapLookup (pairedPhase st pkey q r mrec rc mi).pairedMap pkey = some stored
       ∧ (pairedPhase st pkey q r mrec rc mi).dupList = st.dupList ++ [mi, rc]
       ∧ r ∈ (pairedPhase st pkey q r mrec rc mi).released
       ∧ mrec ∈ (pairedPhase st pkey q r mrec rc mi).released) := by
  have hps := pairedPhase_of_some st pkey q r mrec rc mi stored hstored
  constructor
  · intro hcond
    have hb : (!(decide (stored.sumBaseQual < q) ||
        (decide (stored.sumBaseQual = q) && decide (mi < stored.record2Index)))) = false := by
      rcases hcond with hc | ⟨he, hmi⟩
      · simp [hc]
      · simp [he, hmi]
    rw [hps, if_neg (by simp [hb])]
    refine ⟨mapLookup_mapUpdate_self _ _ _ _ hstored, rfl, ?_, ?_⟩
    · intro p hp
      simp [hp]
    · intro p hp
      simp [hp]
  · intro hcond
    rcases not_or.1 hcond with ⟨h1, h2⟩
    have hb : (!(decide (stored.sumBaseQual < q) ||
        (decide (stored.sumBaseQual = q) && decide (mi < stored.record2Index)))) = true := by
      by_cases he : stored.sumBaseQual = q
      · have hx : ¬ mi < stored.record2Index := fun hm => h2 ⟨he, hm⟩
        simp [h1, he, hx]
      · simp [h1, he]
    rw [hps, if_pos hb]
    refine ⟨hstored, rfl, by simp, by simp⟩

/-- A stored pair with combined quality 40 whose first mate has file
index 3, used by the C2 witness. -/
def storedPair : PairedData :=
  { sumBaseQual := 40, record1Ptr := some (singleRead "pA2" 20)
    record2Ptr := some (singleRead "pA1" 20), record1Index := 4, record2Index := 3 }

/-- The pair key both the stored and the challenging pair share. -/
def sharedPairKey : PairedKey :=
  PairedKey.make ⟨0, 100, false, 0⟩ ⟨0, 150, false, 0⟩

/-- A state whose paired map holds `storedPair` at `sharedPairKey`. -/
def storedPairState : DedupState :=
  { initState with pairedMap := [(sharedPairKey, storedPair)] }

theorem dedup_c2_pair_decision_witness :
    mapLookup
      (pairedPhase storedPairState sharedPairKey 40
        (singleRead "pB2" 20) (singleRead "pB1" 20) 6 5).pairedMap sharedPairKey =
      some storedPair
  ∧ (pairedPhase storedPairState sharedPairKey 40
      (singleRead "pB2" 20) (singleRead "pB1" 20) 6 5).dupList = [5, 6]
  ∧ singleRead "pB2" 20 ∈
      (pairedPhase storedPairState sharedPairKey 40
        (singleRead "pB2" 20) (singleRead "pB1" 20) 6 5).released := by
  have h := (dedup_c2_pair_decision storedPairState sharedPairKey 40
    (singleRead "pB2" 20) (singleRead "pB1" 20) 6 5 storedPair rfl
    (by decide) (by decide) (by decide)).2 (by decide)
  exact ⟨h.1, h.2.1, h.2.2.1⟩

/-- C3: at one fragment key, among unpaired candidates the earlier read
survives a quality tie and the strictly higher-quality read survives
regardless of order; on the concrete boundary input with quality sums
10, 25, 10 the sorted duplicate list is exactly [1, 3]. -/
theorem dedup_c3_tie_break (cfg : DedupCfg) (st : DedupState) (r : SamRecord)
    (rc : Nat) (st' : DedupState) (old : ReadData)
    (hlib : cfg.numLibraries ≤ 1)
    (hrp : recordPairedOf cfg r = false)
    (hold : mapLookup st.fragmentMap (updateKey r 0) = some old)
    (holdp : old.paired = false)
    (hok : checkDups cfg st r rc = .ok st') :
    (old.sumBaseQual = getBaseQuality cfg.minQual r →
       rc ∈ st'.dupList ∧ r ∈ st'.released
       ∧ mapLookup st'.fragmentMap (updateKey r 0) = some old)
  ∧ (old.sumBaseQual < getBaseQuality cfg.minQual r →
       old.recordIndex ∈ st'.dupList
       ∧ mapLookup st'.fragmentMap (updateKey r 0) =
           some { sumBaseQual := getBaseQuality cfg.minQual r, recordIndex := rc
                  paired := false, recordPtr := some r })
  ∧ (getBaseQuality cfg.minQual r < old.sumBaseQual →
       rc ∈ st'.dupList ∧ r ∈ st'.released
       ∧ mapLookup st'.fragmentMap (updateKey r 0) = some old)
  ∧ dupListOfRun plainCfg tripleReads = some [1, 3] := by
  rw [checkDups_unpaired cfg st r rc hrp hlib] at hok
  simp only [Except.ok.injEq] at hok
  subst hok
  have hfs := fragmentPhase_of_some st (updateKey r 0) (getBaseQuality cfg.minQual r)
    false r rc old hold
  refine ⟨?_, ?_, ?_, rfl⟩
  · intro heq
    rw [hfs, if_neg (by simp [heq, lt_irrefl]),
      if_pos (show (!false : Bool) = true from rfl)]
    exact ⟨by simp, by simp, hold⟩
  · intro hlt
    rw [hfs, if_pos (by simp [holdp, hlt])]
    exact ⟨by simp, mapLookup_mapUpdate_self _ _ _ _ hold⟩
  · intro hgt
    rw [hfs, if_neg (by simp [holdp, not_lt_of_gt hgt]),
      if_pos (show (!false : Bool) = true from rfl)]
    exact ⟨by simp, by simp, hold⟩

/-- The state after a tying unpaired read with quality sum 10 hits
`priorState` as record 3. -/
def tieResult : DedupState :=
  match checkDups plainCfg priorState (singleRead "r3" 10) 3 with
  | .ok st => st
  | .error _ => initState

theorem dedup_c3_tie_break_witness :
    checkDups plainCfg priorState (singleRead "r3" 10) 3 = .ok tieResult
  ∧ ((3 : Nat) ∈ tieResult.dupList ∧ singleRead "r3" 10 ∈ tieResult.released
     ∧ mapLookup tieResult.fragmentMap (updateKey (singleRead "r3" 10) 0) =
         some priorEntry) := by
  refine ⟨rfl, ?_⟩
  exact (dedup_c3_tie_break plainCfg priorState (singleRead "r3" 10) 3 tieResult
    priorEntry (by decide) rfl rfl rfl rfl).1 rfl

/-- C6: a paired mate-mapped record whose mate position is strictly
behind and which matches nothing in the mate-wait map at its own
position bumps the missing-mate counter exactly once, never puts its
own index on the duplicate list, is released, and an index absent from
the duplicate list is never marked as a duplicate in pass 2. -/
theorem dedup_c6_missing_mate (cfg : DedupCfg) (st : DedupState) (r : SamRecord)
    (rc : Nat) (st' : DedupState) (hlib : cfg.numLibraries ≤ 1)
    (hrp : recordPairedOf cfg r = true)
    (hbehind : combineChromPos r.mateRefID r.matePos < combineChromPos r.refID r.pos)
    (hnomatch : (mateFind st.mateMap (combineChromPos r.refID r.pos) r.readName).1 = none)
    (hok : checkDups cfg st r rc = .ok st')
    (hnew : rc ∉ st.dupList)
    (hfresh : ∀ old, mapLookup st.fragmentMap (updateKey r 0) = some old →
        old.recordIndex ≠ rc) :
    st'.numMissingMate = st.numMissingMate + 1
  ∧ rc ∉ st'.dupList
  ∧ r ∈ st'.released
  ∧ (∀ (cfg2 : DedupCfg) (dup : List Nat) (recs : List SamRecord),
       rc ∉ dup → rc ∉ (runPass2 cfg2 dup recs).markedList) := by
  rw [checkDups_missing_mate_eq cfg st r rc hlib hrp hbehind hnomatch] at hok
  simp only [Except.ok.injEq] at hok
  subst hok
  rw [handleMissingMate]
  refine ⟨?_, ?_, ?_, ?_⟩
  · show (fragmentPhase st (updateKey r 0) (getBaseQuality cfg.minQual r) true r rc).numMissingMate + 1
        = st.numMissingMate + 1
    rw [(fragmentPhase_frame st (updateKey r 0) (getBaseQuality cfg.minQual r) true r rc).2.2]
  · show rc ∉ (fragmentPhase st (updateKey r 0) (getBaseQuality cfg.minQual r) true r rc).dupList
    rcases fragmentPhase_dupList st (updateKey r 0) (getBaseQuality cfg.minQual r) true r rc with
      h | ⟨old, holdx, h⟩ | ⟨hfalse, _⟩
    · rw [h]; exact hnew
    · rw [h]
      intro hmem
      rcases List.mem_append.1 hmem with hmem | hmem
      · exact hnew hmem
      · have hx : rc = old.recordIndex := by simpa using hmem
        exact hfresh old holdx hx.symm
    · exact absurd hfalse (by simp)
  · show r ∈ (fragmentPhase st (updateKey r 0) (getBaseQuality cfg.minQual r) true r rc).released ++ [r]
    simp
  · intro cfg2 dup recs hdnot hmem
    exact hdnot (runPass2_marked_mem cfg2 dup recs rc hmem)

/-- A paired mate-mapped record at position 500 whose mate at position
100 was never stored in the mate-wait map. -/
def orphanRead : SamRecord :=
  { flag := 1, refID := 0, pos := 500, mateRefID := 0, matePos := 100
    readName := "m", qual := [58], clip := 0, rgTags := [] }

/-- The state after `orphanRead` passes through the decision engine. -/
def orphanResult : DedupState :=
  match checkDups plainCfg initState orphanRead 1 with
  | .ok st => st
  | .error _ => initState

theorem dedup_c6_missing_mate_witness :
    checkDups plainCfg initState orphanRead 1 = .ok orphanResult
  ∧ (orphanResult.numMissingMate = 1 ∧ (1 : Nat) ∉ orphanResult.dupList
     ∧ orphanRead ∈ orphanResult.released) := by
  refine ⟨rfl, ?_⟩
  have h := dedup_c6_missing_mate plainCfg initState orphanRead 1 orphanResult
    (by decide) rfl (by decide) rfl rfl (by decide)
    (fun old hx => Option.noConfusion hx)
  exact ⟨h.1, h.2.1, h.2.2.1⟩

/-- A read that arrives already carrying the duplicate flag. -/
def dupMarkedRead : SamRecord :=
  { flag := 1024, refID := 0, pos := 200, mateRefID := -1, matePos := -1
    readName := "d", qual := [58], clip := 0, rgTags := [] }

/-- A clean read followed by a duplicate-marked read. -/
def mixedReads : List SamRecord := [singleRead "r1" 10, dupMarkedRead]

/-- The engine state at the moment pass 1 aborts on `mixedReads`. -/
def abortState : DedupState :=
  match runPass1 plainCfg mixedReads with
  | .error e => e.2
  | .ok st => st

/-- C8 counterexample: without force mode the run does abort on the
duplicate-marked record, but not before any processing: at the abort the
fragment map already holds the entry built from record 1. -/
theorem dedup_c8_counterexample :
    runPass1 plainCfg mixedReads = .error (.alreadyMarked 2, abortState)
  ∧ abortState.fragmentMap ≠ [] := by
  refine ⟨rfl, ?_⟩
  decide

/-- C8 (amended): when force mode is off, an input containing a
duplicate-marked record always aborts pass 1 fatally, so pass 2 never
runs and no output is produced; records earlier in file order may
however already have been processed when the abort fires. -/
theorem dedup_c8_fatal_no_output (cfg : DedupCfg) (recs : List SamRecord)
    (r : SamRecord) (hforce : cfg.forceFlag = false) (hr : r ∈ recs)
    (hdup : isDuplicateFlag r.flag = true) :
    ∃ e, execute cfg recs = .error e := by
  cases hrun : runPass1 cfg recs with
  | error e => exact ⟨e, by rw [execute, hrun]⟩
  | ok st =>
    exfalso
    rw [runPass1] at hrun
    cases hloop : pass1Loop cfg initState 0 recs with
    | error e => rw [hloop] at hrun; cases hrun
    | ok st0 =>
      exact pass1Loop_ok_no_marked cfg recs initState 0 st0 hloop r hr ⟨hdup, hforce⟩

theorem dedup_c8_fatal_no_output_witness :
    ∃ e, execute plainCfg mixedReads = .error e :=
  dedup_c8_fatal_no_output plainCfg mixedReads dupMarkedRead rfl (by decide) rfl

end BamDedup
